import Mathlib

/-!
# Verification of `add-text-to-vid`

A shallow embedding, in Lean 4, of the two Python scripts of the
`add-text-to-vid` repository:

* `src/add-text-to-vid.py` — parses an instruction file of timed text
  overlays and sequentially drives an external `ffmpeg` binary, one
  invocation per overlay, chaining each step's output video into the next
  step's input;
* `src/preview-fonts.py` — walks a font directory and renders one preview
  clip per font file.

Modelling conventions:

* Python `float` values are modelled exactly, as decimal fractions
  (`PyFloat`, value `num / 10 ^ exp`), and `int` values as `ℤ`.  Every
  numeric value the scripts and the properties below actually manipulate is
  a small integer, for which Python's binary floating point is exact, so
  the exact-decimal model is faithful on the inputs considered.
  `PyFloat.toRat` gives the rational value of a decimal.
* The external world (the `ffmpeg` binary, `cp`, the filesystem) is
  modelled by boolean oracles: each external invocation is recorded
  together with the success/failure bit the oracle assigns to it.
* The `csv` module is out of scope (standard library); an instruction file
  is modelled as the list of rows the csv reader yields, each row a list of
  field strings, with `none` standing for a file that cannot be opened.
  A blank line in the file yields the empty row `[]`, as `csv.reader` does.
* Python exceptions are modelled with `Except String`; the message records
  the shape of the Python error text where a property depends on it.
-/

set_option maxRecDepth 100000

/-- `str.startswith(pre)`, on the character lists of the strings. -/
def pyStartsWith (pre s : String) : Bool :=
  pre.data.isPrefixOf s.data

/-- `str.split(sep)` for a single-character separator, on the character
list of the string.  Python's `split` never returns an empty list:
`"".split(".") == [""]`, and separators at the ends produce empty parts. -/
def splitOnChar (sep : Char) : List Char → List (List Char)
  | [] => [[]]
  | c :: cs =>
    match splitOnChar sep cs with
    | [] => [[]]
    | h :: t => if c = sep then [] :: h :: t else (c :: h) :: t

/-- `str.split(sep)` at the `String` level. -/
def pySplit (sep : Char) (s : String) : List String :=
  (splitOnChar sep s.data).map String.mk

/-- Check that a character list is a nonempty run of decimal digits. -/
def allDigits (l : List Char) : Bool :=
  !l.isEmpty && l.all (·.isDigit)

/-- Numeric value of a run of decimal digits. -/
def digitsToNat (l : List Char) : Nat :=
  l.foldl (fun acc c => acc * 10 + (c.toNat - '0'.toNat)) 0

/-- An exact decimal fraction `num / 10 ^ exp`: the model of a Python
`float` value.  All values the scripts actually compute are integers
(`exp = 0`), where binary floating point is exact, so the decimal model
introduces no rounding that the program could observe in the properties
proved below. -/
structure PyFloat where
  num : ℤ
  exp : ℕ
deriving DecidableEq, Repr

/-- The rational value of an exact decimal. -/
def PyFloat.toRat (d : PyFloat) : ℚ := (d.num : ℚ) / (10 : ℚ) ^ d.exp

/-- Multiplication of a `float` by a Python `int` literal (`parts[0] * 3600`). -/
def PyFloat.mulNat (d : PyFloat) (n : ℕ) : PyFloat := ⟨d.num * n, d.exp⟩

/-- Addition of two `float` values, exact on decimals. -/
def PyFloat.add (a b : PyFloat) : PyFloat :=
  ⟨a.num * 10 ^ b.exp + b.num * 10 ^ a.exp, a.exp + b.exp⟩

theorem PyFloat.toRat_mulNat (d : PyFloat) (n : ℕ) :
    (d.mulNat n).toRat = d.toRat * n := by
  simp only [PyFloat.mulNat, PyFloat.toRat]
  push_cast
  ring

theorem PyFloat.toRat_add (a b : PyFloat) :
    (a.add b).toRat = a.toRat + b.toRat := by
  simp only [PyFloat.add, PyFloat.toRat]
  push_cast
  rw [pow_add]
  field_simp
  try ring

/-- The Python `float(s)` constructor, modelled on sign/integer/fraction
literals (`"12"`, `"-3.5"`, `"+0.25"`, `"7."`, `".5"`): `none` when the
string is not numeric (this is the `ValueError` case).  Exotic inputs that
`float` also accepts (exponents, `inf`, `nan`, padding) do not occur in the
properties below and are treated as non-numeric. -/
def pyFloat? (s : String) : Option PyFloat :=
  let (sign, body) : ℤ × List Char :=
    match s.data with
    | '-' :: rest => (-1, rest)
    | '+' :: rest => (1, rest)
    | l => (1, l)
  match splitOnChar '.' body with
  | [intPart] =>
    if allDigits intPart then some ⟨sign * digitsToNat intPart, 0⟩ else none
  | [intPart, fracPart] =>
    if (allDigits intPart || intPart.isEmpty) &&
        (allDigits fracPart || fracPart.isEmpty) &&
        !(intPart.isEmpty && fracPart.isEmpty) then
      some ⟨sign * (digitsToNat intPart * 10 ^ fracPart.length + digitsToNat fracPart),
        fracPart.length⟩
    else none
  | _ => none

/-- The Python `int(s)` constructor, modelled on sign/digit literals:
`none` when the string is not an integer literal (the `ValueError` case). -/
def pyInt? (s : String) : Option ℤ :=
  match s.data with
  | '-' :: rest => if allDigits rest then some (-(digitsToNat rest : ℤ)) else none
  | '+' :: rest => if allDigits rest then some (digitsToNat rest : ℤ) else none
  | l => if allDigits l then some (digitsToNat l : ℤ) else none

deriving instance DecidableEq for Except

/-- The comprehension `[float(part) for part in parts]` of
`convert_to_seconds` (line 75): convert each part with `float`, the first
`ValueError` aborting the whole list. -/
def floatParts : List String → Except String (List PyFloat)
  | [] => Except.ok []
  | p :: ps =>
    match pyFloat? p with
    | none => Except.error ("could not convert string to float: " ++ p)
    | some v =>
      match floatParts ps with
      | .error m => Except.error m
      | .ok vs => Except.ok (v :: vs)

/-- `convert_to_seconds` from `src/add-text-to-vid.py` (lines 67–81):
split the string on `':'`, convert every part with `float`, then combine
`h*3600 + m*60 + s` for 3 parts, `m*60 + s` for 2 parts, and for any other
count return the first part alone (Python's final `else` branch covers both
a single part and four or more parts).  A non-numeric part raises
`ValueError`, modelled as `.error`. -/
def convert_to_seconds (time_str : String) : Except String PyFloat :=
  match floatParts (pySplit ':' time_str) with
  | .error m => Except.error m
  | .ok parts =>
    match parts with
    | [h, m, s] => Except.ok (((h.mulNat 3600).add (m.mulNat 60)).add s)
    | [m, s] => Except.ok ((m.mulNat 60).add s)
    | v :: _ => Except.ok v
    | [] => Except.error "unreachable: split never returns an empty list"

/-- Strip factors of ten: auxiliary for rendering a decimal the way Python
prints a float (shortest digit string). -/
def canonAux : ℤ → ℕ → ℤ × ℕ
  | n, 0 => (n, 0)
  | n, e + 1 => if n % 10 = 0 then canonAux (n / 10) e else (n, e + 1)

/-- Canonical form of an exact decimal (no trailing zero in the fraction). -/
def PyFloat.canon (d : PyFloat) : PyFloat :=
  ⟨(canonAux d.num d.exp).1, (canonAux d.num d.exp).2⟩

/-- Python's `str()` of a `float` value, on the exact-decimal model: an
integral value prints as `"<digits>.0"` (so `str(0.0) == "0.0"`,
`str(5.0) == "5.0"`), a fractional value prints its shortest digit string
around the decimal point. -/
def pyFloatStr (d : PyFloat) : String :=
  let c := d.canon
  let sign := if c.num < 0 then "-" else ""
  let digits := toString c.num.natAbs
  if c.exp = 0 then sign ++ digits ++ ".0"
  else
    let padded :=
      if digits.length ≤ c.exp then
        String.mk (List.replicate (c.exp + 1 - digits.length) '0') ++ digits
      else digits
    let k := padded.length - c.exp
    sign ++ String.mk (padded.data.take k) ++ "." ++ String.mk (padded.data.drop k)

/-- An Overlay Specification: one parsed instruction row
(`parse_text_file` appends one such dictionary per data row). -/
structure OverlaySpec where
  start_time : String
  end_time : String
  text : String
  x : ℤ
  y : ℤ
  font : String
  font_size : ℤ
deriving DecidableEq, Repr

/-- One iteration of the row loop of `parse_text_file`
(`src/add-text-to-vid.py` lines 23–35).  Python evaluates `row[0]` before
`not row`, so an empty row raises `IndexError` (`list index out of range`)
— the `or not row` test meant to skip blank lines is unreachable for them.
A non-comment row is unpacked into exactly 7 names (a `ValueError` if the
count differs) and `x`, `y`, `size` are converted with `int` (a
`ValueError` if non-numeric).  `.ok none` is a skipped row. -/
def parseRow (row : List String) : Except String (Option OverlaySpec) :=
  match row with
  | [] => Except.error "list index out of range"
  | r0 :: _ =>
    if pyStartsWith "#" r0 then Except.ok none
    else
      match row with
      | [time, end_time, text, x, y, font, size] =>
        match pyInt? x, pyInt? y, pyInt? size with
        | some xi, some yi, some si =>
          Except.ok (some ⟨time, end_time, text, xi, yi, font, si⟩)
        | none, _, _ => Except.error ("invalid literal for int() with base 10: " ++ x)
        | _, none, _ => Except.error ("invalid literal for int() with base 10: " ++ y)
        | _, _, none => Except.error ("invalid literal for int() with base 10: " ++ size)
      | _ => Except.error "values to unpack (expected 7)"

/-- The row loop of `parse_text_file`: rows in file order, each appended
spec keeping its position; the first raised error aborts the whole loop. -/
def parseRows : List (List String) → Except String (List OverlaySpec)
  | [] => Except.ok []
  | row :: rest =>
    match parseRow row with
    | .error m => Except.error m
    | .ok none => parseRows rest
    | .ok (some spec) =>
      match parseRows rest with
      | .error m => Except.error m
      | .ok others => Except.ok (spec :: others)

/-- `parse_text_file` (lines 11–39): the instruction file is the list of
csv rows (`none` when the file cannot be opened, the `IOError` case).  Any
exception is wrapped into `RuntimeError("Error parsing text file: ...")`,
modelled by the message prefix. -/
def parse_text_file (file? : Option (List (List String))) :
    Except String (List OverlaySpec) :=
  match file? with
  | none => Except.error "Error parsing text file: could not open file"
  | some rows =>
    match parseRows rows with
    | .error m => Except.error ("Error parsing text file: " ++ m)
    | .ok texts => Except.ok texts

/-- The `filter_string` of `generate_ffmpeg_command` (lines 54–59): a
single `drawtext` directive reading its text from `text_file`. -/
def filterString (text_file : String) (t : OverlaySpec)
    (startS endS : PyFloat) : String :=
  "drawtext=fontfile=/usr/share/fonts/truetype/" ++ t.font ++ ".ttf: " ++
  "textfile='" ++ text_file ++ "': x=" ++ toString t.x ++ ": y=" ++
  toString t.y ++ ": " ++
  "fontsize=" ++ toString t.font_size ++ ": fontcolor=white: " ++
  "enable='between(t," ++ pyFloatStr startS ++ "," ++ pyFloatStr endS ++ ")'"

/-- `generate_ffmpeg_command` (lines 41–65): resolve the two timestamps
(an unhandled `ValueError` if either is malformed — modelled by `.error`),
then build the command string exactly as the two f-strings do. -/
def generate_ffmpeg_command (input_video text_file : String) (t : OverlaySpec)
    (output_video : String) : Except String String :=
  match convert_to_seconds t.start_time with
  | .error m => .error m
  | .ok startS =>
    match convert_to_seconds t.end_time with
    | .error m => .error m
    | .ok endS =>
      .ok ("ffmpeg -i " ++ input_video ++ " -filter:v \"" ++
        filterString text_file t startS endS ++ "\" -codec:a copy " ++
        output_video)

/-- One recorded external `ffmpeg` invocation of the compositor loop:
the command string passed to `run_ffmpeg`, and the video paths the command
reads and writes. -/
structure Invocation where
  command : String
  input : String
  output : String
deriving DecidableEq, Repr

/-- `os.path.join(tmpdirname, name)` and `f"{tmpdirname}/{name}"`: both
join with a single slash. -/
def tmpPath (tmpdir name : String) : String := tmpdir ++ "/" ++ name

/-- How the overlay loop of `main` (lines 120–134) ends: normally with the
final Working Video Reference, with a caught `RuntimeError` from
`run_ffmpeg` at step `idx` (main logs it and returns), or with an
unhandled `ValueError` escaping `convert_to_seconds`. -/
inductive LoopExit where
  | done (finalTemp : String)
  | stepFail (idx : Nat)
  | tsError
deriving DecidableEq, Repr

/-- `os.path.join(tmpdirname, f"text_{idx}.txt")` (line 122). -/
def textPathAt (tmpdir : String) (idx : Nat) : String :=
  tmpPath tmpdir ("text_" ++ toString idx ++ ".txt")

/-- `f"{tmpdirname}/temp_{idx}.mp4"` (lines 127 and 134). -/
def outPathAt (tmpdir : String) (idx : Nat) : String :=
  tmpPath tmpdir ("temp_" ++ toString idx ++ ".mp4")

/-- The overlay loop of `main` (lines 120–134).  For each spec, in order:
write the overlay text to `text_<idx>.txt`, build the command with the
current `temp_video` as input and `temp_<idx>.mp4` as output, run it
(`ffmpegOk idx` is the external tool's verdict), and on success reassign
`temp_video` to the step's output.  Returns the invocations performed, the
temporary paths written (the output path of a failed invocation is
conservatively counted as written), and the exit kind. -/
def overlayLoop (tmpdir : String) (ffmpegOk : Nat → Bool) :
    List OverlaySpec → Nat → String →
    List Invocation × List String × LoopExit
  | [], _, temp_video => ([], [], .done temp_video)
  | t :: ts, idx, temp_video =>
    match generate_ffmpeg_command temp_video (textPathAt tmpdir idx) t
        (outPathAt tmpdir idx) with
    | .error _ => ([], [textPathAt tmpdir idx], .tsError)
    | .ok cmd =>
      if ffmpegOk idx then
        let r := overlayLoop tmpdir ffmpegOk ts (idx + 1) (outPathAt tmpdir idx)
        (⟨cmd, temp_video, outPathAt tmpdir idx⟩ :: r.1,
          textPathAt tmpdir idx :: outPathAt tmpdir idx :: r.2.1, r.2.2)
      else
        ([⟨cmd, temp_video, outPathAt tmpdir idx⟩],
          [textPathAt tmpdir idx, outPathAt tmpdir idx], .stepFail idx)

/-- How a run of the overlay utility's `main` ends.  `parseError` and
`stepFailure` are caught (`main` logs and returns, so the interpreter
exits normally); `copyInFailure`, `finalCopyFailure` and `tsError` are
exceptions that escape `main` (lines 118, 141, and a `ValueError` from
`convert_to_seconds`), so the interpreter exits abnormally. -/
inductive Outcome where
  | parseError
  | copyInFailure
  | tsError
  | stepFailure (idx : Nat)
  | finalCopyFailure
  | success
deriving DecidableEq, Repr

/-- Everything observable about one run of the overlay utility: the
`ffmpeg` invocations performed in order, the file paths written, the final
`cp` (source, destination) if it was reached, and how the run ended. -/
structure RunResult where
  invocations : List Invocation
  written : List String
  finalCopy : Option (String × String)
  outcome : Outcome
deriving DecidableEq, Repr

/-- `main` of `src/add-text-to-vid.py` (lines 97–143): parse the
instruction file (a `RuntimeError` is caught: log and return); copy the
input video to `tmpdir/temp.mp4` (`copyInOk` is `cp`'s verdict; failure
raises); run the overlay loop; on normal loop exit, `cp` the final
Working Video Reference to the user-specified output path (`finalCopyOk`
is `cp`'s verdict; failure raises).  A failed `cp` may have created its
target, so the target is conservatively counted as written. -/
def runMain (input_video output_video tmpdir : String)
    (file? : Option (List (List String)))
    (copyInOk : Bool) (ffmpegOk : Nat → Bool) (finalCopyOk : Bool) :
    RunResult :=
  match parse_text_file file? with
  | .error _ => ⟨[], [], none, .parseError⟩
  | .ok texts =>
    let temp0 := tmpPath tmpdir "temp.mp4"
    if copyInOk then
      let r := overlayLoop tmpdir ffmpegOk texts 0 temp0
      match r.2.2 with
      | .done tv =>
        if finalCopyOk then
          ⟨r.1, temp0 :: r.2.1 ++ [output_video], some (tv, output_video), .success⟩
        else ⟨r.1, temp0 :: r.2.1 ++ [output_video], none, .finalCopyFailure⟩
      | .stepFail i => ⟨r.1, temp0 :: r.2.1, none, .stepFailure i⟩
      | .tsError => ⟨r.1, temp0 :: r.2.1, none, .tsError⟩
    else ⟨[], [temp0], none, .copyInFailure⟩

/-- The process exit status of the overlay utility for each way `main`
ends: `main` returning normally exits the interpreter with status 0, an
uncaught exception exits with status 1.  Parse errors and overlay-step
failures are caught inside `main` (lines 107–109 and 130–132) and only
logged, so the interpreter still exits with status 0 for them. -/
def exitCode : Outcome → Nat
  | .parseError => 0
  | .stepFailure _ => 0
  | .success => 0
  | .copyInFailure => 1
  | .tsError => 1
  | .finalCopyFailure => 1

/-- `os.path.basename`: the part after the last slash. -/
def basename (p : String) : String := (pySplit '/' p).getLastD ""

/-- The display name `generate_preview_video` derives
(`src/preview-fonts.py` line 14): `os.path.basename(font_path).split('.')[0]`,
the part of the basename before its first dot. -/
def font_name (font_path : String) : String :=
  ((pySplit '.' (basename font_path)).headD "")

/-- `str.replace(a, b)` for single characters. -/
def replaceChar (a b : Char) (s : String) : String :=
  String.mk (s.data.map (fun c => if c = a then b else c))

/-- The command string `generate_preview_video` builds (lines 15–19). -/
def preview_command (font_path output_path : String) : String :=
  "ffmpeg -f lavfi -i color=c=white:s=640x480:d=5 " ++
  "-vf \"drawtext=fontfile=" ++ font_path ++ ":text='Sample Text\n" ++
  font_name font_path ++
  "':fontsize=48:fontcolor=black:x=(w-text_w)/2:y=(h-text_h)/2\" -y " ++
  output_path

/-- One iteration of the preview batch: the command run, the external
tool's verdict, and whether the per-font failure message was printed. -/
structure PreviewStep where
  command : String
  okRun : Bool
  failureLogged : Bool
deriving DecidableEq, Repr

/-- `generate_preview_video` (lines 12–24): run the command; a
`CalledProcessError` is caught *inside* this function and only printed, so
no exception ever escapes to the caller's loop. -/
def generate_preview_video (ok : Bool) (font_path output_path : String) :
    PreviewStep :=
  ⟨preview_command font_path output_path, ok, !ok⟩

/-- The per-font output file of `main` in `src/preview-fonts.py`
(line 33): `font_previews/<basename with spaces underscored>.mp4`. -/
def preview_output_file (font : String) : String :=
  tmpPath "font_previews" (replaceChar ' ' '_' (basename font) ++ ".mp4")

/-- The font loop of `main` in `src/preview-fonts.py` (lines 32–35):
every enumerated font is processed; nothing in the loop can abort it. -/
def previewLoop (ok : String → Bool) : List String → List PreviewStep
  | [] => []
  | f :: fs =>
    generate_preview_video (ok f) f (preview_output_file f) :: previewLoop ok fs

/-- A whole run of the preview utility: the steps performed and the
process exit status. -/
structure PreviewRun where
  steps : List PreviewStep
  exitStatus : Nat
deriving DecidableEq, Repr

/-- `main` of `src/preview-fonts.py` (lines 26–35) over the enumerated
font list (`ok` is the external tool's verdict per font): the loop always
completes and `main` returns normally, so the interpreter exits with
status 0. -/
def preview_main (fonts : List String) (ok : String → Bool) : PreviewRun :=
  ⟨previewLoop ok fonts, 0⟩

/-- Both timestamps of a spec convert without a `ValueError`: the
well-formedness the Command Builder needs. -/
def timestampsOk (t : OverlaySpec) : Bool :=
  (convert_to_seconds t.start_time).isOk && (convert_to_seconds t.end_time).isOk

/-- Each invocation consumes exactly the preceding invocation's output;
the first consumes `src`. -/
def ChainedFrom : String → List Invocation → Prop
  | _, [] => True
  | src, inv :: rest => inv.input = src ∧ ChainedFrom inv.output rest

/-- The Working Video Reference after a fully successful loop that
started at step `idx` with video `tv`. -/
def finalTemp (tmpdir : String) (idx : Nat) (tv : String) :
    List OverlaySpec → String
  | [] => tv
  | _ :: ts => outPathAt tmpdir (idx + ts.length)

theorem generate_ok (iv tf ov : String) (t : OverlaySpec)
    (h : timestampsOk t = true) :
    ∃ c, generate_ffmpeg_command iv tf t ov = .ok c := by
  unfold timestampsOk at h
  rcases h1 : convert_to_seconds t.start_time with m | s
  · rw [h1] at h
    simp [Except.isOk, Except.toBool] at h
  · rcases h2 : convert_to_seconds t.end_time with m | e
    · rw [h2] at h
      simp [Except.isOk, Except.toBool] at h
    · exact ⟨"ffmpeg -i " ++ iv ++ " -filter:v \"" ++ filterString tf t s e ++
        "\" -codec:a copy " ++ ov, by simp [generate_ffmpeg_command, h1, h2]⟩

theorem overlayLoop_allOk_done (tmpdir : String) (ffmpegOk : Nat → Bool)
    (hok : ∀ j, ffmpegOk j = true) :
    ∀ (ts : List OverlaySpec) (idx : Nat) (tv : String),
      (∀ t ∈ ts, timestampsOk t = true) →
      (overlayLoop tmpdir ffmpegOk ts idx tv).2.2 =
        .done (finalTemp tmpdir idx tv ts) := by
  intro ts
  induction ts with
  | nil => intro idx tv _; rfl
  | cons t ts ih =>
    intro idx tv hts
    obtain ⟨c, hc⟩ := generate_ok tv (textPathAt tmpdir idx)
      (outPathAt tmpdir idx) t (hts t (by simp))
    have hrec := ih (idx + 1) (outPathAt tmpdir idx)
      (fun u hu => hts u (by simp [hu]))
    simp only [overlayLoop, hc, if_pos (hok idx)]
    rw [hrec]
    cases ts with
    | nil => rfl
    | cons t' ts' =>
      simp only [finalTemp, List.length_cons]
      have h : idx + 1 + ts'.length = idx + (ts'.length + 1) := by omega
      rw [h]

theorem overlayLoop_allOk_length (tmpdir : String) (ffmpegOk : Nat → Bool)
    (hok : ∀ j, ffmpegOk j = true) :
    ∀ (ts : List OverlaySpec) (idx : Nat) (tv : String),
      (∀ t ∈ ts, timestampsOk t = true) →
      (overlayLoop tmpdir ffmpegOk ts idx tv).1.length = ts.length := by
  intro ts
  induction ts with
  | nil => intro idx tv _; rfl
  | cons t ts ih =>
    intro idx tv hts
    obtain ⟨c, hc⟩ := generate_ok tv (textPathAt tmpdir idx)
      (outPathAt tmpdir idx) t (hts t (by simp))
    have hrec := ih (idx + 1) (outPathAt tmpdir idx)
      (fun u hu => hts u (by simp [hu]))
    simp only [overlayLoop, hc, if_pos (hok idx), List.length_cons]
    rw [hrec]

theorem overlayLoop_allOk_chained (tmpdir : String) (ffmpegOk : Nat → Bool)
    (hok : ∀ j, ffmpegOk j = true) :
    ∀ (ts : List OverlaySpec) (idx : Nat) (tv : String),
      (∀ t ∈ ts, timestampsOk t = true) →
      ChainedFrom tv (overlayLoop tmpdir ffmpegOk ts idx tv).1 := by
  intro ts
  induction ts with
  | nil => intro idx tv _; trivial
  | cons t ts ih =>
    intro idx tv hts
    obtain ⟨c, hc⟩ := generate_ok tv (textPathAt tmpdir idx)
      (outPathAt tmpdir idx) t (hts t (by simp))
    have hrec := ih (idx + 1) (outPathAt tmpdir idx)
      (fun u hu => hts u (by simp [hu]))
    simp only [overlayLoop, hc, if_pos (hok idx)]
    exact ⟨rfl, hrec⟩

theorem overlayLoop_allOk_output (tmpdir : String) (ffmpegOk : Nat → Bool)
    (hok : ∀ j, ffmpegOk j = true) :
    ∀ (ts : List OverlaySpec) (idx : Nat) (tv : String),
      (∀ t ∈ ts, timestampsOk t = true) →
      ∀ i, i < ts.length →
        ((overlayLoop tmpdir ffmpegOk ts idx tv).1.get? i).map Invocation.output =
          some (outPathAt tmpdir (idx + i)) := by
  intro ts
  induction ts with
  | nil =>
    intro idx tv _ i hi
    simp at hi
  | cons t ts ih =>
    intro idx tv hts i hi
    obtain ⟨c, hc⟩ := generate_ok tv (textPathAt tmpdir idx)
      (outPathAt tmpdir idx) t (hts t (by simp))
    have hrec := ih (idx + 1) (outPathAt tmpdir idx)
      (fun u hu => hts u (by simp [hu]))
    simp only [overlayLoop, hc, if_pos (hok idx)]
    cases i with
    | zero => rfl
    | succ i =>
      simp only [List.get?_cons_succ]
      rw [hrec i (by simpa using Nat.lt_of_succ_lt_succ hi)]
      have h : idx + 1 + i = idx + (i + 1) := by omega
      rw [h]

theorem overlayLoop_allOk_getLast (tmpdir : String) (ffmpegOk : Nat → Bool)
    (hok : ∀ j, ffmpegOk j = true) :
    ∀ (ts : List OverlaySpec) (idx : Nat) (tv : String),
      (∀ t ∈ ts, timestampsOk t = true) → ts ≠ [] →
      ∃ last, (overlayLoop tmpdir ffmpegOk ts idx tv).1.getLast? = some last ∧
        last.output = finalTemp tmpdir idx tv ts := by
  intro ts
  induction ts with
  | nil => intro idx tv _ h; exact absurd rfl h
  | cons t ts ih =>
    intro idx tv hts _
    obtain ⟨c, hc⟩ := generate_ok tv (textPathAt tmpdir idx)
      (outPathAt tmpdir idx) t (hts t (by simp))
    simp only [overlayLoop, hc, if_pos (hok idx)]
    cases ts with
    | nil =>
      have hnil : (overlayLoop tmpdir ffmpegOk [] (idx + 1)
          (outPathAt tmpdir idx)).1 = [] := rfl
      rw [hnil]
      exact ⟨_, rfl, by simp [finalTemp]⟩
    | cons t' ts' =>
      have hrec := ih (idx + 1) (outPathAt tmpdir idx)
        (fun u hu => hts u (by simp [hu])) (by simp)
      obtain ⟨last, hlast, hout⟩ := hrec
      refine ⟨last, ?_, ?_⟩
      · have hlen := overlayLoop_allOk_length tmpdir ffmpegOk hok (t' :: ts')
          (idx + 1) (outPathAt tmpdir idx)
          (fun u hu => hts u (by simp [hu]))
        rcases hinv : (overlayLoop tmpdir ffmpegOk (t' :: ts') (idx + 1)
            (outPathAt tmpdir idx)).1 with _ | ⟨inv1, invs'⟩
        · rw [hinv] at hlen
          simp at hlen
        · rw [hinv] at hlast
          rw [List.getLast?_cons_cons]
          exact hlast
      · rw [hout]
        simp only [finalTemp, List.length_cons]
        have h : idx + 1 + ts'.length = idx + (ts'.length + 1) := by omega
        rw [h]

theorem overlayLoop_written (tmpdir : String) (ffmpegOk : Nat → Bool) :
    ∀ (ts : List OverlaySpec) (idx : Nat) (tv : String),
      ∀ p ∈ (overlayLoop tmpdir ffmpegOk ts idx tv).2.1,
        ∃ s, p = tmpPath tmpdir s := by
  intro ts
  induction ts with
  | nil => intro idx tv p hp; simp [overlayLoop] at hp
  | cons t ts ih =>
    intro idx tv p hp
    rcases hc : generate_ffmpeg_command tv (textPathAt tmpdir idx) t
        (outPathAt tmpdir idx) with m | cmd
    · rw [overlayLoop, hc] at hp
      simp at hp
      exact ⟨_, hp⟩
    · rw [overlayLoop, hc] at hp
      dsimp only at hp
      by_cases hf : ffmpegOk idx = true
      · rw [if_pos hf] at hp
        simp only [List.mem_cons] at hp
        rcases hp with h | h | h
        · exact ⟨_, h⟩
        · exact ⟨_, h⟩
        · exact ih (idx + 1) (outPathAt tmpdir idx) p h
      · rw [if_neg hf] at hp
        simp only [List.mem_cons] at hp
        rcases hp with h | h | h
        · exact ⟨_, h⟩
        · exact ⟨_, h⟩
        · simp at h

theorem overlayLoop_failAt (tmpdir : String) (ffmpegOk : Nat → Bool) :
    ∀ (ts : List OverlaySpec) (idx : Nat) (tv : String) (k : Nat),
      k < ts.length →
      (∀ t ∈ ts.take (k + 1), timestampsOk t = true) →
      (∀ j, j < k → ffmpegOk (idx + j) = true) →
      ffmpegOk (idx + k) = false →
      (overlayLoop tmpdir ffmpegOk ts idx tv).2.2 = .stepFail (idx + k) ∧
        (overlayLoop tmpdir ffmpegOk ts idx tv).1.length = k + 1 := by
  intro ts
  induction ts with
  | nil => intro idx tv k hk; simp at hk
  | cons t ts ih =>
    intro idx tv k hk hts hok hfail
    obtain ⟨c, hc⟩ := generate_ok tv (textPathAt tmpdir idx)
      (outPathAt tmpdir idx) t (hts t (by simp))
    cases k with
    | zero =>
      have hfail' : ¬ (ffmpegOk idx = true) := by
        simp only [Nat.add_zero] at hfail
        simp [hfail]
      simp only [overlayLoop, hc, if_neg hfail']
      exact ⟨by simp, rfl⟩
    | succ k =>
      have hok0 : ffmpegOk idx = true := by simpa using hok 0 (by omega)
      have hrec := ih (idx + 1) (outPathAt tmpdir idx) k
        (by simpa using Nat.lt_of_succ_lt_succ hk)
        (fun u hu => hts u (by simp [List.take_succ_cons]; right; exact hu))
        (fun j hj => by
          have h : idx + 1 + j = idx + (j + 1) := by omega
          rw [h]
          exact hok (j + 1) (by omega))
        (by
          have h : idx + 1 + k = idx + (k + 1) := by omega
          rw [h]
          exact hfail)
      obtain ⟨hex, hlen⟩ := hrec
      simp only [overlayLoop, hc, if_pos hok0]
      constructor
      · rw [hex]
        have h : idx + 1 + k = idx + (k + 1) := by omega
        rw [h]
      · simp only [List.length_cons, hlen]

example : convert_to_seconds "01:02:03" = .ok ⟨3723, 0⟩ := by decide
example : convert_to_seconds "02:30" = .ok ⟨150, 0⟩ := by decide
example : convert_to_seconds "45" = .ok ⟨45, 0⟩ := by decide
example : convert_to_seconds "1:2:3:4" = .ok ⟨1, 0⟩ := by decide
example : (convert_to_seconds "1:xx").isOk = false := by decide
example : PyFloat.toRat ⟨3723, 0⟩ = 3723 := by norm_num [PyFloat.toRat]
example : pyFloatStr ⟨0, 0⟩ = "0.0" := by decide
example : pyFloatStr ⟨5, 0⟩ = "5.0" := by decide
example : pyFloatStr ⟨15, 1⟩ = "1.5" := by decide
example : pyFloatStr ⟨150, 2⟩ = "1.5" := by decide
example : pyFloatStr ⟨5, 2⟩ = "0.05" := by decide
example : pyFloatStr ⟨-25, 1⟩ = "-2.5" := by decide
example :
    parse_text_file (some [["# hi"], ["00:00:00", "00:00:05", "Hello", "10", "20", "Arial", "24"]]) =
      .ok [⟨"00:00:00", "00:00:05", "Hello", 10, 20, "Arial", 24⟩] := by decide
example :
    parse_text_file (some [["# hi"], [], ["00:00:00", "00:00:05", "Hello", "10", "20", "Arial", "24"]]) =
      .error "Error parsing text file: list index out of range" := by decide
example :
    generate_ffmpeg_command "in.mp4" "/tmp/w/text_0.txt"
        ⟨"00:00:00", "00:00:05", "Hello", 10, 20, "Arial", 24⟩ "out.mp4" =
      .ok ("ffmpeg -i in.mp4 -filter:v \"drawtext=fontfile=/usr/share/fonts/truetype/Arial.ttf: " ++
        "textfile='/tmp/w/text_0.txt': x=10: y=20: fontsize=24: fontcolor=white: " ++
        "enable='between(t,0.0,5.0)'\" -codec:a copy out.mp4") := by decide

theorem floatParts_error_of_mem :
    ∀ (l : List String) (p : String), p ∈ l → pyFloat? p = none →
      ∃ m, floatParts l = .error m := by
  intro l
  induction l with
  | nil => intro p hp; simp at hp
  | cons a l ih =>
    intro p hp hnone
    rcases List.mem_cons.mp hp with h | h
    · subst h
      exact ⟨"could not convert string to float: " ++ p, by simp [floatParts, hnone]⟩
    · rcases ha : pyFloat? a with _ | v
      · exact ⟨"could not convert string to float: " ++ a, by simp [floatParts, ha]⟩
      · obtain ⟨m, hm⟩ := ih p h hnone
        exact ⟨m, by simp [floatParts, ha, hm]⟩

theorem floatParts_ok_of_all :
    ∀ (l : List String), (∀ p ∈ l, (pyFloat? p).isSome = true) →
      ∃ vs, floatParts l = .ok vs ∧ vs.length = l.length := by
  intro l
  induction l with
  | nil => intro _; exact ⟨[], rfl, rfl⟩
  | cons a l ih =>
    intro h
    rcases ha : pyFloat? a with _ | v
    · have := h a (by simp)
      rw [ha] at this
      simp at this
    · obtain ⟨vs, hvs, hlen⟩ := ih (fun p hp => h p (by simp [hp]))
      exact ⟨v :: vs, by simp [floatParts, ha, hvs], by simp [hlen]⟩

/-- Claim C5: for 1 to 3 colon-separated numeric parts, the Time Parser
returns `h*3600 + m*60 + s` for whichever parts are present (the rational
value of the returned decimal equals that arithmetic combination of the
parts' values), and it fails with a parse error when any part is
non-numeric.  The three quoted examples `"01:02:03" → 3723.0`,
`"02:30" → 150.0` and `"45" → 45.0` are included as closed conjuncts. -/
theorem claim_C5_time_conversion :
    (∀ s p1 v1, pySplit ':' s = [p1] → pyFloat? p1 = some v1 →
      convert_to_seconds s = .ok v1) ∧
    (∀ s p1 p2 v1 v2, pySplit ':' s = [p1, p2] →
      pyFloat? p1 = some v1 → pyFloat? p2 = some v2 →
      convert_to_seconds s = .ok ((v1.mulNat 60).add v2) ∧
      ((v1.mulNat 60).add v2).toRat = v1.toRat * 60 + v2.toRat) ∧
    (∀ s p1 p2 p3 v1 v2 v3, pySplit ':' s = [p1, p2, p3] →
      pyFloat? p1 = some v1 → pyFloat? p2 = some v2 → pyFloat? p3 = some v3 →
      convert_to_seconds s = .ok (((v1.mulNat 3600).add (v2.mulNat 60)).add v3) ∧
      (((v1.mulNat 3600).add (v2.mulNat 60)).add v3).toRat =
        v1.toRat * 3600 + v2.toRat * 60 + v3.toRat) ∧
    (∀ s p, p ∈ pySplit ':' s → pyFloat? p = none →
      ∃ m, convert_to_seconds s = .error m) ∧
    (convert_to_seconds "01:02:03" = .ok ⟨3723, 0⟩ ∧
      PyFloat.toRat ⟨3723, 0⟩ = 3723) ∧
    (convert_to_seconds "02:30" = .ok ⟨150, 0⟩ ∧
      PyFloat.toRat ⟨150, 0⟩ = 150) ∧
    (convert_to_seconds "45" = .ok ⟨45, 0⟩ ∧ PyFloat.toRat ⟨45, 0⟩ = 45) := by
  refine ⟨?_, ?_, ?_, ?_, ?_, ?_, ?_⟩
  · intro s p1 v1 hsplit hp1
    unfold convert_to_seconds
    rw [hsplit]
    simp [floatParts, hp1]
  · intro s p1 p2 v1 v2 hsplit hp1 hp2
    constructor
    · unfold convert_to_seconds
      rw [hsplit]
      simp [floatParts, hp1, hp2]
    · rw [PyFloat.toRat_add, PyFloat.toRat_mulNat]
      norm_num
  · intro s p1 p2 p3 v1 v2 v3 hsplit hp1 hp2 hp3
    constructor
    · unfold convert_to_seconds
      rw [hsplit]
      simp [floatParts, hp1, hp2, hp3]
    · rw [PyFloat.toRat_add, PyFloat.toRat_add, PyFloat.toRat_mulNat,
        PyFloat.toRat_mulNat]
      norm_num
  · intro s p hmem hnone
    obtain ⟨m, hm⟩ := floatParts_error_of_mem (pySplit ':' s) p hmem hnone
    exact ⟨m, by unfold convert_to_seconds; rw [hm]⟩
  · exact ⟨by decide, by norm_num [PyFloat.toRat]⟩
  · exact ⟨by decide, by norm_num [PyFloat.toRat]⟩
  · exact ⟨by decide, by norm_num [PyFloat.toRat]⟩

/-- Witness for C5: the parser applied to the spec's three examples. -/
theorem claim_C5_witness :
    convert_to_seconds "02:30" =
      .ok ((PyFloat.mulNat ⟨2, 0⟩ 60).add ⟨30, 0⟩) ∧
    convert_to_seconds "01:02:03" =
      .ok (((PyFloat.mulNat ⟨1, 0⟩ 3600).add (PyFloat.mulNat ⟨2, 0⟩ 60)).add ⟨3, 0⟩) ∧
    convert_to_seconds "45" = .ok ⟨45, 0⟩ :=
  ⟨(claim_C5_time_conversion.2.1 "02:30" "02" "30" ⟨2, 0⟩ ⟨30, 0⟩ (by decide)
      (by decide) (by decide)).1,
    (claim_C5_time_conversion.2.2.1 "01:02:03" "01" "02" "03" ⟨1, 0⟩ ⟨2, 0⟩ ⟨3, 0⟩
      (by decide) (by decide) (by decide) (by decide)).1,
    claim_C5_time_conversion.1 "45" "45" ⟨45, 0⟩ (by decide) (by decide)⟩

/-- Claim C10: with four or more colon-separated parts, all numeric, the
Time Parser does not fail; it returns the value of the first part alone. -/
theorem claim_C10_extra_parts (s p1 p2 p3 p4 : String) (rest : List String)
    (v1 : PyFloat)
    (hsplit : pySplit ':' s = p1 :: p2 :: p3 :: p4 :: rest)
    (hall : ∀ p ∈ pySplit ':' s, (pyFloat? p).isSome = true)
    (h1 : pyFloat? p1 = some v1) :
    convert_to_seconds s = .ok v1 := by
  rw [hsplit] at hall
  obtain ⟨vs, hvs, hlen⟩ := floatParts_ok_of_all _
    (fun p hp => hall p (by simp [List.mem_cons] at hp ⊢; tauto))
  have h2 : (pyFloat? p2).isSome = true := hall p2 (by simp)
  have h3 : (pyFloat? p3).isSome = true := hall p3 (by simp)
  have h4 : (pyFloat? p4).isSome = true := hall p4 (by simp)
  rcases hw2 : pyFloat? p2 with _ | v2
  · rw [hw2] at h2; simp at h2
  rcases hw3 : pyFloat? p3 with _ | v3
  · rw [hw3] at h3; simp at h3
  rcases hw4 : pyFloat? p4 with _ | v4
  · rw [hw4] at h4; simp at h4
  obtain ⟨vsr, hvsr, hlenr⟩ := floatParts_ok_of_all rest
    (fun p hp => hall p (by simp [hp]))
  have hfull : floatParts (p1 :: p2 :: p3 :: p4 :: rest) =
      .ok (v1 :: v2 :: v3 :: v4 :: vsr) := by
    simp [floatParts, h1, hw2, hw3, hw4, hvsr]
  unfold convert_to_seconds
  rw [hsplit, hfull]

/-- Witness for C10: `"1:2:3:4"` parses to `1.0`. -/
theorem claim_C10_witness : convert_to_seconds "1:2:3:4" = .ok ⟨1, 0⟩ :=
  claim_C10_extra_parts "1:2:3:4" "1" "2" "3" "4" [] ⟨1, 0⟩ (by decide)
    (by decide) (by decide)

/-- Claim C7, failing input: the row loop of `parse_text_file` evaluates
`row[0]` before `not row`, so a blank line (which `csv.reader` yields as
the empty row) raises `IndexError` and aborts the whole parse instead of
contributing zero entries; the same file without the blank line parses,
and comment rows are skipped with order preserved. -/
theorem claim_C7_comment_blank :
    parse_text_file (some [["# a comment"], [],
        ["00:00:00", "00:00:05", "Hello", "10", "20", "Arial", "24"]]) =
      .error "Error parsing text file: list index out of range" ∧
    parse_text_file (some [["# a comment"],
        ["00:00:00", "00:00:05", "Hello", "10", "20", "Arial", "24"],
        ["# another"],
        ["00:00:06", "00:00:09", "Bye", "30", "40", "Courier", "12"]]) =
      .ok [⟨"00:00:00", "00:00:05", "Hello", 10, 20, "Arial", 24⟩,
        ⟨"00:00:06", "00:00:09", "Bye", 30, 40, "Courier", 12⟩] := by
  constructor
  · decide
  · decide

theorem splitOnChar_ne_nil (c : Char) : ∀ l, splitOnChar c l ≠ [] := by
  intro l
  induction l with
  | nil => simp [splitOnChar]
  | cons a l ih =>
    rcases h : splitOnChar c l with _ | ⟨h1, t⟩
    · exact absurd h ih
    · simp only [splitOnChar, h]
      split <;> simp

theorem splitOnChar_append (c : Char) :
    ∀ (l1 l2 : List Char), c ∉ l1 →
      splitOnChar c (l1 ++ c :: l2) = l1 :: splitOnChar c l2 := by
  intro l1
  induction l1 with
  | nil =>
    intro l2 _
    rcases h : splitOnChar c l2 with _ | ⟨h1, t⟩
    · exact absurd h (splitOnChar_ne_nil c l2)
    · simp [splitOnChar, h]
  | cons a l1 ih =>
    intro l2 hnot
    have ha : ¬(a = c) := fun hac => hnot (by simp [hac])
    have h1 : c ∉ l1 := fun hc => hnot (by simp [hc])
    simp only [List.cons_append, splitOnChar, List.append_eq]
    rw [ih l2 h1]
    simp [ha]

/-- Claim C9, counterexample: for the basename decomposition
`"DejaVu.Sans.ttf" = "DejaVu.Sans" ++ "." ++ "ttf"` the display name the
preview tool derives is `"DejaVu"`, the prefix before the *first* dot, not
the filename without its extension `"DejaVu.Sans"`. -/
theorem claim_C9_counterexample :
    basename "/usr/share/fonts/DejaVu.Sans.ttf" = "DejaVu.Sans" ++ "." ++ "ttf" ∧
    font_name "/usr/share/fonts/DejaVu.Sans.ttf" = "DejaVu" ∧
    "DejaVu" ≠ "DejaVu.Sans" := by
  refine ⟨by decide, by decide, by decide⟩

/-- Claim C9 as amended: the display name is the part of the basename
before its first dot, so it equals the extension-free stem exactly when
the stem itself contains no dot. -/
theorem claim_C9_amended (p stem ext : String)
    (hb : basename p = stem ++ "." ++ ext)
    (hstem : ('.' : Char) ∉ stem.data) :
    font_name p = stem := by
  unfold font_name pySplit
  rw [hb]
  have hdot : ("." : String).data = ['.'] := rfl
  have hdata : (stem ++ "." ++ ext).data = stem.data ++ '.' :: ext.data := by
    rw [String.data_append, String.data_append, hdot, List.append_assoc,
      List.singleton_append]
  rw [hdata, splitOnChar_append _ _ _ hstem]
  rfl

/-- Witness for the amended C9: a dot-free stem gives the stem itself. -/
theorem claim_C9_amended_witness :
    font_name "/usr/share/fonts/truetype/DejaVuSans.ttf" = "DejaVuSans" :=
  claim_C9_amended "/usr/share/fonts/truetype/DejaVuSans.ttf" "DejaVuSans"
    "ttf" (by decide) (by decide)

theorem previewLoop_eq_map (ok : String → Bool) :
    ∀ fonts : List String,
      previewLoop ok fonts =
        fonts.map (fun f => generate_preview_video (ok f) f
          (preview_output_file f)) := by
  intro fonts
  induction fonts with
  | nil => rfl
  | cons f fs ih => simp [previewLoop, ih]

/-- Claim C8: the preview utility runs one invocation per enumerated font
— a failed invocation is only logged (the exception is caught inside
`generate_preview_video`) and the loop continues with every later font —
and the process always exits with status 0. -/
theorem claim_C8_preview_failures (fonts : List String) (ok : String → Bool) :
    (preview_main fonts ok).exitStatus = 0 ∧
    (preview_main fonts ok).steps.length = fonts.length ∧
    (∀ i f, fonts.get? i = some f →
      (preview_main fonts ok).steps.get? i =
        some (generate_preview_video (ok f) f (preview_output_file f))) ∧
    (∀ i f, fonts.get? i = some f → ok f = false →
      ((preview_main fonts ok).steps.get? i).map PreviewStep.failureLogged =
        some true) := by
  have hsteps : (preview_main fonts ok).steps =
      fonts.map (fun g => generate_preview_video (ok g) g
        (preview_output_file g)) := previewLoop_eq_map ok fonts
  refine ⟨rfl, ?_, ?_, ?_⟩
  · rw [hsteps, List.length_map]
  · intro i f hf
    rw [hsteps, List.get?_map, hf]
    rfl
  · intro i f hf hok
    rw [hsteps, List.get?_map, hf]
    simp [generate_preview_video, hok]

/-- Witness for C8: two fonts, the external tool failing on both; both
invocations still happen and the exit status is 0. -/
theorem claim_C8_witness :
    (preview_main ["A.ttf", "B.otf"] (fun _ => false)).exitStatus = 0 ∧
    (preview_main ["A.ttf", "B.otf"] (fun _ => false)).steps.length = 2 ∧
    (preview_main ["A.ttf", "B.otf"] (fun _ => false)).steps.get? 1 =
      some (generate_preview_video false "B.otf"
        (preview_output_file "B.otf")) := by
  have h := claim_C8_preview_failures ["A.ttf", "B.otf"] (fun _ => false)
  exact ⟨h.1, by rw [h.2.1]; decide, h.2.2.1 1 "B.otf" (by decide)⟩

/-- Claim C3, counterexample: a parse failure is caught in `main`
(lines 107–109), which logs it and returns normally, so the interpreter
exits with status 0 — not the non-zero status the claim requires.  The
same happens for an overlay-step failure (lines 130–132). -/
theorem claim_C3_counterexample :
    (∃ m, parse_text_file (some [["not a valid row"]]) = .error m) ∧
    exitCode (runMain "in.mp4" "out.mp4" "/tmp/w" (some [["not a valid row"]])
      true (fun _ => true) true).outcome = 0 ∧
    (runMain "in.mp4" "out.mp4" "/tmp/w"
      (some [["00:00:00", "00:00:05", "Hello", "10", "20", "Arial", "24"]])
      true (fun _ => false) true).outcome = .stepFailure 0 ∧
    exitCode (runMain "in.mp4" "out.mp4" "/tmp/w"
      (some [["00:00:00", "00:00:05", "Hello", "10", "20", "Arial", "24"]])
      true (fun _ => false) true).outcome = 0 :=
  ⟨⟨"Error parsing text file: values to unpack (expected 7)", by decide⟩,
    by decide, by decide, by decide⟩

/-- Claim C3 as amended: the process exits with status 0 on success but
also when parsing fails or an overlay step fails (those errors are only
logged); the exit status is non-zero only when one of the `cp` steps fails
or a malformed timestamp raises an uncaught `ValueError`. -/
theorem claim_C3_amended (input_video output_video tmpdir : String)
    (file? : Option (List (List String))) (copyInOk : Bool)
    (ffmpegOk : Nat → Bool) (finalCopyOk : Bool) :
    ((runMain input_video output_video tmpdir file? copyInOk ffmpegOk
        finalCopyOk).outcome = .success ∨
      (runMain input_video output_video tmpdir file? copyInOk ffmpegOk
        finalCopyOk).outcome = .parseError ∨
      (∃ i, (runMain input_video output_video tmpdir file? copyInOk ffmpegOk
        finalCopyOk).outcome = .stepFailure i) →
      exitCode (runMain input_video output_video tmpdir file? copyInOk
        ffmpegOk finalCopyOk).outcome = 0) ∧
    ((runMain input_video output_video tmpdir file? copyInOk ffmpegOk
        finalCopyOk).outcome = .copyInFailure ∨
      (runMain input_video output_video tmpdir file? copyInOk ffmpegOk
        finalCopyOk).outcome = .tsError ∨
      (runMain input_video output_video tmpdir file? copyInOk ffmpegOk
        finalCopyOk).outcome = .finalCopyFailure →
      exitCode (runMain input_video output_video tmpdir file? copyInOk
        ffmpegOk finalCopyOk).outcome = 1) := by
  constructor
  · rintro (h | h | ⟨i, h⟩) <;> rw [h] <;> rfl
  · rintro (h | h | h) <;> rw [h] <;> rfl

/-- Witness for the amended C3: a malformed instruction file, exit 0. -/
theorem claim_C3_amended_witness :
    exitCode (runMain "in.mp4" "out.mp4" "/tmp/w" (some [["nope"]]) true
      (fun _ => true) true).outcome = 0 :=
  (claim_C3_amended "in.mp4" "out.mp4" "/tmp/w" (some [["nope"]]) true
    (fun _ => true) true).1 (Or.inr (Or.inl (by decide)))

/-- A row that claim C4 calls malformed: non-empty, not a comment, and
with the wrong field count or a non-numeric `x`, `y` or `size` field. -/
def badRow (row : List String) : Bool :=
  !row.isEmpty && !(pyStartsWith "#" (row.headD "")) &&
    (row.length != 7 || (pyInt? (row.getD 3 "")).isNone ||
      (pyInt? (row.getD 4 "")).isNone || (pyInt? (row.getD 6 "")).isNone)

theorem parseRow_error_of_badRow (row : List String)
    (h : badRow row = true) : ∃ m, parseRow row = .error m := by
  rcases row with _ | ⟨f1, _ | ⟨f2, _ | ⟨f3, _ | ⟨f4, _ | ⟨f5, _ | ⟨f6,
    _ | ⟨f7, _ | ⟨f8, rest⟩⟩⟩⟩⟩⟩⟩⟩
  · simp [badRow] at h
  all_goals cases hS : pyStartsWith "#" f1
  all_goals first
    | (exfalso
       simp [badRow, hS] at h
       done)
    | (refine ⟨"values to unpack (expected 7)", ?_⟩
       simp [parseRow, hS]
       done)
    | (rcases h4 : pyInt? f4 with _ | x4
       · refine ⟨"invalid literal for int() with base 10: " ++ f4, ?_⟩
         simp [parseRow, hS, h4]
       rcases h5 : pyInt? f5 with _ | x5
       · refine ⟨"invalid literal for int() with base 10: " ++ f5, ?_⟩
         simp [parseRow, hS, h4, h5]
       rcases h7 : pyInt? f7 with _ | x7
       · refine ⟨"invalid literal for int() with base 10: " ++ f7, ?_⟩
         simp [parseRow, hS, h4, h5, h7]
       · exfalso
         simp [badRow, hS, h4, h5, h7] at h)

theorem parseRows_error_of_bad :
    ∀ rows : List (List String), (∃ row ∈ rows, badRow row = true) →
      ∃ m, parseRows rows = .error m := by
  intro rows
  induction rows with
  | nil => rintro ⟨row, h, _⟩; simp at h
  | cons r rest ih =>
    rintro ⟨row, hmem, hbad⟩
    rcases List.mem_cons.mp hmem with h | h
    · subst h
      obtain ⟨m, hm⟩ := parseRow_error_of_badRow row hbad
      exact ⟨m, by simp [parseRows, hm]⟩
    · rcases hr : parseRow r with mr | o
      · exact ⟨mr, by simp [parseRows, hr]⟩
      · obtain ⟨m, hm⟩ := ih ⟨row, h, hbad⟩
        rcases o with _ | spec
        · exact ⟨m, by simp [parseRows, hr, hm]⟩
        · exact ⟨m, by simp [parseRows, hr, hm]⟩

/-- Claim C4: an instruction file that cannot be opened, or that contains
a row with the wrong field count or a non-numeric `x`/`y`/`size` field,
makes parsing fail with a `RuntimeError` wrapping the underlying cause,
and the whole run aborts before the temporary directory stage: zero
external invocations, nothing written, outcome `parseError`. -/
theorem claim_C4_parse_abort (input_video output_video tmpdir : String)
    (file? : Option (List (List String)))
    (copyInOk : Bool) (ffmpegOk : Nat → Bool) (finalCopyOk : Bool)
    (h : file? = none ∨
      ∃ rows, file? = some rows ∧ ∃ row ∈ rows, badRow row = true) :
    (∃ cause, parse_text_file file? =
      .error ("Error parsing text file: " ++ cause)) ∧
    (runMain input_video output_video tmpdir file? copyInOk ffmpegOk
      finalCopyOk).invocations = [] ∧
    (runMain input_video output_video tmpdir file? copyInOk ffmpegOk
      finalCopyOk).written = [] ∧
    (runMain input_video output_video tmpdir file? copyInOk ffmpegOk
      finalCopyOk).outcome = .parseError := by
  have herr : ∃ cause, parse_text_file file? =
      .error ("Error parsing text file: " ++ cause) := by
    rcases h with h | ⟨rows, hrows, hbad⟩
    · subst h
      exact ⟨"could not open file", by decide⟩
    · subst hrows
      obtain ⟨m, hm⟩ := parseRows_error_of_bad rows hbad
      exact ⟨m, by simp [parse_text_file, hm]⟩
  obtain ⟨cause, hc⟩ := herr
  refine ⟨⟨cause, hc⟩, ?_, ?_, ?_⟩ <;> simp [runMain, hc]

/-- Witness for C4: a row with a non-numeric `x` field aborts the run
with zero invocations. -/
theorem claim_C4_witness :
    (runMain "in.mp4" "out.mp4" "/tmp/w"
      (some [["00:00:00", "00:00:05", "Hi", "1x", "20", "Arial", "24"]])
      true (fun _ => true) true).invocations = [] ∧
    (runMain "in.mp4" "out.mp4" "/tmp/w"
      (some [["00:00:00", "00:00:05", "Hi", "1x", "20", "Arial", "24"]])
      true (fun _ => true) true).outcome = .parseError := by
  have h := claim_C4_parse_abort "in.mp4" "out.mp4" "/tmp/w"
    (some [["00:00:00", "00:00:05", "Hi", "1x", "20", "Arial", "24"]])
    true (fun _ => true) true
    (Or.inr ⟨[["00:00:00", "00:00:05", "Hi", "1x", "20", "Arial", "24"]],
      rfl, ⟨["00:00:00", "00:00:05", "Hi", "1x", "20", "Arial", "24"],
        by decide, by decide⟩⟩)
  exact ⟨h.2.1, h.2.2.2⟩

/-- Claim C1: for a well-formed instruction file with `N` entries and every
external step succeeding, `main` performs exactly `N` `ffmpeg` invocations,
one per entry in file order (invocation `i` writes `temp_<i>.mp4`); the
chain starts at the temporary copy `tmpdir/temp.mp4` of the input video and
each later invocation consumes exactly the previous one's output; after the
loop the user-specified output path receives a copy of the last
invocation's output (of the initial copy when `N = 0`); and the original
input video path — distinct from the output path and outside the temporary
directory — is never written to. -/
theorem claim_C1_sequential_chain (input_video output_video tmpdir : String)
    (rows : List (List String)) (texts : List OverlaySpec)
    (hparse : parse_text_file (some rows) = .ok texts)
    (hts : ∀ t ∈ texts, timestampsOk t = true)
    (hio : input_video ≠ output_video)
    (hitmp : ∀ s, input_video ≠ tmpPath tmpdir s) :
    (runMain input_video output_video tmpdir (some rows) true (fun _ => true)
      true).invocations.length = texts.length ∧
    ChainedFrom (tmpPath tmpdir "temp.mp4")
      (runMain input_video output_video tmpdir (some rows) true
        (fun _ => true) true).invocations ∧
    (∀ i, i < texts.length →
      ((runMain input_video output_video tmpdir (some rows) true
        (fun _ => true) true).invocations.get? i).map Invocation.output =
        some (outPathAt tmpdir i)) ∧
    (texts ≠ [] → ∃ last,
      (runMain input_video output_video tmpdir (some rows) true
        (fun _ => true) true).invocations.getLast? = some last ∧
      (runMain input_video output_video tmpdir (some rows) true
        (fun _ => true) true).finalCopy = some (last.output, output_video)) ∧
    (texts = [] →
      (runMain input_video output_video tmpdir (some rows) true
        (fun _ => true) true).finalCopy =
        some (tmpPath tmpdir "temp.mp4", output_video)) ∧
    (runMain input_video output_video tmpdir (some rows) true (fun _ => true)
      true).outcome = .success ∧
    input_video ∉ (runMain input_video output_video tmpdir (some rows) true
      (fun _ => true) true).written := by
  have hok : ∀ j, (fun _ : Nat => true) j = true := fun _ => rfl
  have hdone := overlayLoop_allOk_done tmpdir (fun _ => true) hok texts 0
    (tmpPath tmpdir "temp.mp4") hts
  have hrun : runMain input_video output_video tmpdir (some rows) true
      (fun _ => true) true =
      ⟨(overlayLoop tmpdir (fun _ => true) texts 0
          (tmpPath tmpdir "temp.mp4")).1,
        tmpPath tmpdir "temp.mp4" ::
          (overlayLoop tmpdir (fun _ => true) texts 0
            (tmpPath tmpdir "temp.mp4")).2.1 ++ [output_video],
        some (finalTemp tmpdir 0 (tmpPath tmpdir "temp.mp4") texts,
          output_video),
        .success⟩ := by
    unfold runMain
    rw [hparse]
    dsimp only
    rw [hdone]
    rfl
  rw [hrun]
  refine ⟨?_, ?_, ?_, ?_, ?_, rfl, ?_⟩
  · exact overlayLoop_allOk_length tmpdir (fun _ => true) hok texts 0
      (tmpPath tmpdir "temp.mp4") hts
  · exact overlayLoop_allOk_chained tmpdir (fun _ => true) hok texts 0
      (tmpPath tmpdir "temp.mp4") hts
  · intro i hi
    have h := overlayLoop_allOk_output tmpdir (fun _ => true) hok texts 0
      (tmpPath tmpdir "temp.mp4") hts i hi
    simpa using h
  · intro hne
    obtain ⟨last, hl, ho⟩ := overlayLoop_allOk_getLast tmpdir (fun _ => true)
      hok texts 0 (tmpPath tmpdir "temp.mp4") hts hne
    exact ⟨last, hl, by rw [ho]⟩
  · intro hnil
    subst hnil
    rfl
  · intro hmem
    simp only [List.mem_cons, List.mem_append, List.mem_singleton] at hmem
    rcases hmem with (h | h) | h | h
    · exact hitmp "temp.mp4" h
    · obtain ⟨s, hs⟩ := overlayLoop_written tmpdir (fun _ => true) texts 0
        (tmpPath tmpdir "temp.mp4") input_video h
      exact hitmp s hs
    · exact hio h
    · simp at h

/-- Witness for C1: one entry, all external steps succeeding. -/
theorem claim_C1_witness :
    (runMain "in.mp4" "o.mp4" "/tmp/w"
      (some [["00:00:00", "00:00:05", "Hello", "10", "20", "Arial", "24"]])
      true (fun _ => true) true).invocations.length = 1 ∧
    (runMain "in.mp4" "o.mp4" "/tmp/w"
      (some [["00:00:00", "00:00:05", "Hello", "10", "20", "Arial", "24"]])
      true (fun _ => true) true).outcome = .success := by
  have h := claim_C1_sequential_chain "in.mp4" "o.mp4" "/tmp/w"
    [["00:00:00", "00:00:05", "Hello", "10", "20", "Arial", "24"]]
    [⟨"00:00:00", "00:00:05", "Hello", 10, 20, "Arial", 24⟩]
    (by decide) (by decide) (by decide)
    (by
      intro s hs
      have hl := congrArg String.length hs
      simp only [tmpPath, String.length_append] at hl
      have h1 : ("in.mp4" : String).length = 6 := by decide
      have h2 : ("/tmp/w" : String).length = 6 := by decide
      have h3 : ("/" : String).length = 1 := by decide
      rw [h1, h2, h3] at hl
      omega)
  exact ⟨by rw [h.1]; rfl, h.2.2.2.2.2.1⟩

/-- Claim C2: if the external invocation of step `i` is the first to fail,
exactly invocations `0..i` happen (`i+1` of them), the loop stops, the
final `cp` to the user-specified output path is never reached, and that
output path — outside the temporary directory — is never written. -/
theorem claim_C2_failure_stops (input_video output_video tmpdir : String)
    (rows : List (List String)) (texts : List OverlaySpec)
    (ffmpegOk : Nat → Bool) (finalCopyOk : Bool)
    (hparse : parse_text_file (some rows) = .ok texts)
    (i : Nat) (hi : i < texts.length)
    (hts : ∀ t ∈ texts.take (i + 1), timestampsOk t = true)
    (hbefore : ∀ j, j < i → ffmpegOk j = true)
    (hfail : ffmpegOk i = false)
    (houtmp : ∀ s, output_video ≠ tmpPath tmpdir s) :
    (runMain input_video output_video tmpdir (some rows) true ffmpegOk
      finalCopyOk).invocations.length = i + 1 ∧
    (runMain input_video output_video tmpdir (some rows) true ffmpegOk
      finalCopyOk).outcome = .stepFailure i ∧
    (runMain input_video output_video tmpdir (some rows) true ffmpegOk
      finalCopyOk).finalCopy = none ∧
    output_video ∉ (runMain input_video output_video tmpdir (some rows) true
      ffmpegOk finalCopyOk).written := by
  have hfa := overlayLoop_failAt tmpdir ffmpegOk texts 0
    (tmpPath tmpdir "temp.mp4") i hi hts
    (fun j hj => by simpa using hbefore j hj) (by simpa using hfail)
  have hexit : (overlayLoop tmpdir ffmpegOk texts 0
      (tmpPath tmpdir "temp.mp4")).2.2 = .stepFail i := by
    simpa using hfa.1
  have hrun : runMain input_video output_video tmpdir (some rows) true
      ffmpegOk finalCopyOk =
      ⟨(overlayLoop tmpdir ffmpegOk texts 0 (tmpPath tmpdir "temp.mp4")).1,
        tmpPath tmpdir "temp.mp4" ::
          (overlayLoop tmpdir ffmpegOk texts 0
            (tmpPath tmpdir "temp.mp4")).2.1,
        none, .stepFailure i⟩ := by
    unfold runMain
    rw [hparse]
    dsimp only
    rw [hexit]
    rfl
  rw [hrun]
  refine ⟨hfa.2, rfl, rfl, ?_⟩
  intro hmem
  simp only [List.mem_cons] at hmem
  rcases hmem with h | h
  · exact houtmp "temp.mp4" h
  · obtain ⟨s, hs⟩ := overlayLoop_written tmpdir ffmpegOk texts 0
      (tmpPath tmpdir "temp.mp4") output_video h
    exact houtmp s hs

/-- Witness for C2: two entries, the first external step failing; one
invocation happens, the output path is untouched. -/
theorem claim_C2_witness :
    (runMain "in.mp4" "o.mp4" "/tmp/w"
      (some [["00:00:00", "00:00:05", "Hello", "10", "20", "Arial", "24"],
        ["00:00:06", "00:00:09", "Bye", "30", "40", "Courier", "12"]])
      true (fun _ => false) true).invocations.length = 1 ∧
    (runMain "in.mp4" "o.mp4" "/tmp/w"
      (some [["00:00:00", "00:00:05", "Hello", "10", "20", "Arial", "24"],
        ["00:00:06", "00:00:09", "Bye", "30", "40", "Courier", "12"]])
      true (fun _ => false) true).finalCopy = none := by
  have h := claim_C2_failure_stops "in.mp4" "o.mp4" "/tmp/w"
    [["00:00:00", "00:00:05", "Hello", "10", "20", "Arial", "24"],
      ["00:00:06", "00:00:09", "Bye", "30", "40", "Courier", "12"]]
    [⟨"00:00:00", "00:00:05", "Hello", 10, 20, "Arial", 24⟩,
      ⟨"00:00:06", "00:00:09", "Bye", 30, 40, "Courier", 12⟩]
    (fun _ => false) true (by decide) 0 (by decide) (by decide)
    (fun j hj => absurd hj (Nat.not_lt_zero j)) rfl
    (by
      intro s hs
      have hl := congrArg String.length hs
      simp only [tmpPath, String.length_append] at hl
      have h1 : ("o.mp4" : String).length = 5 := by decide
      have h2 : ("/tmp/w" : String).length = 6 := by decide
      have h3 : ("/" : String).length = 1 := by decide
      rw [h1, h2, h3] at hl
      omega)
  exact ⟨h.1, h.2.2.1⟩

/-- Occurrences of `pat` in a character list (count of positions where
`pat` is a prefix of the remaining list). -/
def countSub (pat : List Char) : List Char → Nat
  | [] => 0
  | c :: rest => (if pat.isPrefixOf (c :: rest) then 1 else 0) + countSub pat rest

/-- Claim C6: for every Overlay Specification whose timestamps convert,
the Command Builder produces the single command that applies exactly the
one `drawtext` filter built from this spec — the filter string begins with
`drawtext=` and sources its text from the content file via a
`textfile='<path>'` reference — and the command copies the audio stream
(`-codec:a copy`).  For the spec's round-trip entry
`{00:00:00,00:00:05,"Hello",10,20,Arial,24}` the concrete command contains
exactly one `drawtext`, no inlined `"Hello"` text, the reference to the
content file, an enable predicate `between(t,0.0,5.0)` whose bounds `0.0`
and `5.0` are the renderings of the values 0 and 5 (so it is equivalent to
`between(t,0,5)`), position `x=10`, `y=20`, and font size 24. -/
theorem claim_C6_command_builder :
    (∀ iv tf ov : String, ∀ t : OverlaySpec, ∀ s e : PyFloat,
      convert_to_seconds t.start_time = .ok s →
      convert_to_seconds t.end_time = .ok e →
      generate_ffmpeg_command iv tf t ov =
        .ok ("ffmpeg -i " ++ iv ++ " -filter:v \"" ++ filterString tf t s e ++
          "\" -codec:a copy " ++ ov)) ∧
    (∀ tf : String, ∀ t : OverlaySpec, ∀ s e : PyFloat,
      ∃ mid, filterString tf t s e = "drawtext=" ++ mid) ∧
    (∀ tf : String, ∀ t : OverlaySpec, ∀ s e : PyFloat,
      ∃ pre post, filterString tf t s e =
        pre ++ ("textfile='" ++ tf ++ "'") ++ post) ∧
    (∃ cmd, generate_ffmpeg_command "in.mp4" "/tmp/w/text_0.txt"
        ⟨"00:00:00", "00:00:05", "Hello", 10, 20, "Arial", 24⟩ "out.mp4" =
        .ok cmd ∧
      countSub "drawtext".data cmd.data = 1 ∧
      countSub "Hello".data cmd.data = 0 ∧
      countSub "textfile='/tmp/w/text_0.txt'".data cmd.data = 1 ∧
      countSub "enable='between(t,0.0,5.0)'".data cmd.data = 1 ∧
      countSub ": x=10: ".data cmd.data = 1 ∧
      countSub ": y=20: ".data cmd.data = 1 ∧
      countSub "fontsize=24: ".data cmd.data = 1 ∧
      countSub " -codec:a copy ".data cmd.data = 1) ∧
    (convert_to_seconds "00:00:00" = .ok ⟨0, 0⟩ ∧ PyFloat.toRat ⟨0, 0⟩ = 0 ∧
      convert_to_seconds "00:00:05" = .ok ⟨5, 0⟩ ∧ PyFloat.toRat ⟨5, 0⟩ = 5 ∧
      pyFloatStr ⟨0, 0⟩ = "0.0" ∧ pyFloatStr ⟨5, 0⟩ = "5.0") := by
  refine ⟨?_, ?_, ?_, ?_, ?_⟩
  · intro iv tf ov t s e hs he
    simp [generate_ffmpeg_command, hs, he]
  · intro tf t s e
    have h0 : ("drawtext=fontfile=/usr/share/fonts/truetype/" : String) =
        "drawtext=" ++ "fontfile=/usr/share/fonts/truetype/" := by decide
    unfold filterString
    rw [h0]
    simp only [String.append_assoc]
    exact ⟨_, rfl⟩
  · intro tf t s e
    refine ⟨"drawtext=fontfile=/usr/share/fonts/truetype/" ++ t.font ++
      ".ttf: ",
      ": x=" ++ toString t.x ++ ": y=" ++ toString t.y ++ ": " ++
        "fontsize=" ++ toString t.font_size ++ ": fontcolor=white: " ++
        "enable='between(t," ++ pyFloatStr s ++ "," ++ pyFloatStr e ++ ")'",
      ?_⟩
    have hq : ("': x=" : String) = "'" ++ ": x=" := by decide
    unfold filterString
    rw [hq]
    simp only [String.append_assoc]
  · refine ⟨"ffmpeg -i in.mp4 -filter:v \"drawtext=fontfile=/usr/share/fonts/truetype/Arial.ttf: textfile='/tmp/w/text_0.txt': x=10: y=20: fontsize=24: fontcolor=white: enable='between(t,0.0,5.0)'\" -codec:a copy out.mp4",
      by decide, by decide, by decide, by decide, by decide, by decide,
      by decide, by decide, by decide⟩
  · exact ⟨by decide, by norm_num [PyFloat.toRat], by decide,
      by norm_num [PyFloat.toRat], by decide, by decide⟩

/-- Witness for C6: the builder applied to the round-trip entry. -/
theorem claim_C6_witness :
    generate_ffmpeg_command "in.mp4" "/tmp/w/text_0.txt"
      ⟨"00:00:00", "00:00:05", "Hello", 10, 20, "Arial", 24⟩ "out.mp4" =
      .ok ("ffmpeg -i " ++ "in.mp4" ++ " -filter:v \"" ++
        filterString "/tmp/w/text_0.txt"
          ⟨"00:00:00", "00:00:05", "Hello", 10, 20, "Arial", 24⟩
          ⟨0, 0⟩ ⟨5, 0⟩ ++ "\" -codec:a copy " ++ "out.mp4") :=
  claim_C6_command_builder.1 "in.mp4" "/tmp/w/text_0.txt" "out.mp4"
    ⟨"00:00:00", "00:00:05", "Hello", 10, 20, "Arial", 24⟩ ⟨0, 0⟩ ⟨5, 0⟩
    (by decide) (by decide)
